import Mathlib

/-!
Verification of the CardiiiiX vital-scan session pipeline.

The definitions below are a shallow embedding of the scan component
(`src/components/VitalScan.tsx`) and the interpretation service
(`src/services/geminiService.ts`): the recording state machine, the
recording processor, the deterministic interpretation fallback, and the
line-oriented clinical-report parser.  JavaScript strings are modelled by
Lean `String` (a wrapper around `List Char`), JavaScript numbers by `ℚ`
(with `Math.round` as floor of `q + 1/2`), and absent (`undefined`)
record fields by `Option`.
-/

/-! ## JavaScript string primitives -/

/-- Whitespace test used by `String.prototype.trim` (the ASCII whitespace
characters that occur in this code base). -/
def jsWs (c : Char) : Bool :=
  c = ' ' || c = '\t' || c = '\n' || c = '\r' || c = '\x0b' || c = '\x0c'

/-- JS trim core: strip whitespace from both ends of a character list. -/
def trimChars (l : List Char) : List Char :=
  ((l.dropWhile jsWs).reverse.dropWhile jsWs).reverse

/-- Boolean list-prefix test (JS `String.prototype.startsWith`). -/
def isPrefixOfB : List Char → List Char → Bool
  | [], _ => true
  | _ :: _, [] => false
  | a :: as, b :: bs => a == b && isPrefixOfB as bs

/-- Boolean substring test (JS `String.prototype.includes`). -/
def containsSubL (p : List Char) : List Char → Bool
  | [] => isPrefixOfB p []
  | c :: rest => isPrefixOfB p (c :: rest) || containsSubL p rest

/-- JS `str.replace(pat, '')` with a plain-string pattern: remove the first
occurrence of `pat`, scanning left to right; no occurrence leaves the
input unchanged. -/
def removeFirstL (pat : List Char) : List Char → List Char
  | [] => []
  | c :: rest =>
    if isPrefixOfB pat (c :: rest) then (c :: rest).drop pat.length
    else c :: removeFirstL pat rest

/-- JS `str.replace(/pat/g, '')` for a literal pattern: remove every
(non-overlapping, leftmost-first) occurrence.  Fuel equals the input
length; every step consumes at least one character, so the fuel never
runs out on the initial call. -/
def removeAllAux (pat : List Char) : Nat → List Char → List Char
  | 0, l => l
  | _ + 1, [] => []
  | f + 1, c :: rest =>
    if isPrefixOfB pat (c :: rest) && !pat.isEmpty then
      removeAllAux pat f (rest.drop (pat.length - 1))
    else c :: removeAllAux pat f rest

def removeAllL (pat l : List Char) : List Char :=
  removeAllAux pat l.length l

/-- JS `line.replace(/###|REPORT_STATUS:/g, '')` from the status-banner
branch: scan left to right, at each position removing `###` first, else
`REPORT_STATUS:`, else keeping the character. -/
def stripMarksAux : Nat → List Char → List Char
  | 0, l => l
  | _ + 1, [] => []
  | f + 1, c :: rest =>
    if isPrefixOfB "###".data (c :: rest) then stripMarksAux f (rest.drop 2)
    else if isPrefixOfB "REPORT_STATUS:".data (c :: rest) then
      stripMarksAux f (rest.drop 13)
    else c :: stripMarksAux f rest

def stripMarks (l : List Char) : List Char :=
  stripMarksAux l.length l

/-- Helper for the regex split `/(\[.*?\])/`: chars up to and including the
first `]`, together with the remainder. -/
def findClose : List Char → Option (List Char × List Char)
  | [] => none
  | c :: rest =>
    if c = ']' then some ([']'], rest)
    else (findClose rest).map fun p => (c :: p.1, p.2)

/-- JS `line.split(/(\[.*?\])/g)`: split on lazily-matched bracketed
tokens, keeping the separators (the regex has a capture group).  Fuel
equals the input length; every step consumes at least one character. -/
def splitBracketsAux (acc : List Char) : Nat → List Char → List (List Char)
  | 0, l => [acc.reverse ++ l]
  | _ + 1, [] => [acc.reverse]
  | f + 1, c :: rest =>
    if c = '[' then
      match findClose rest with
      | some (tok, rest') =>
        acc.reverse :: ('[' :: tok) :: splitBracketsAux [] f rest'
      | none => splitBracketsAux (c :: acc) f rest
    else splitBracketsAux (c :: acc) f rest

def splitBrackets (l : List Char) : List (List Char) :=
  splitBracketsAux [] l.length l

/-- JS `String.prototype.startsWith` on Lean strings. -/
def jsStartsWith (s pre : String) : Bool :=
  isPrefixOfB pre.data s.data

/-- JS `String.prototype.includes` on Lean strings. -/
def jsIncludes (s pat : String) : Bool :=
  containsSubL pat.data s.data

/-- JS `String.prototype.trim` on Lean strings. -/
def jsTrim (s : String) : String :=
  ⟨trimChars s.data⟩

/-! ## JavaScript numbers -/

/-- JS `x || d` for an optional numeric field `x`: `undefined` and the
falsy number `0` both yield the default `d`.  (`NaN` is also falsy in JS
but cannot arise here and is not modelled.) -/
def jsOr (x : Option ℚ) (d : ℚ) : ℚ :=
  match x with
  | none => d
  | some v => if v = 0 then d else v

/-- JS `Math.round q = ⌊q + 1/2⌋`, written over `num`/`den` so that it
evaluates by kernel reduction.  `jsRound_eq_round` below checks it against
the Mathlib rounding function. -/
def jsRound (q : ℚ) : ℤ :=
  Int.fdiv (2 * q.num + (q.den : ℤ)) (2 * (q.den : ℤ))

theorem jsRound_eq_round (q : ℚ) : jsRound q = round q := by
  have hd : ((q.den : ℚ)) ≠ 0 := by exact_mod_cast q.den_nz
  have h1 : q + 1 / 2 =
      (((2 * q.num + (q.den : ℤ) : ℤ) : ℚ)) / (((2 * q.den : ℕ) : ℕ) : ℚ) := by
    conv_lhs => rw [← Rat.num_div_den q]
    push_cast
    field_simp
    ring
  rw [round_eq, jsRound, h1, Rat.floor_intCast_div_natCast,
    Int.fdiv_eq_ediv _ (by positivity)]
  push_cast
  ring_nf

/-- Decimal rendering of a JS number in a template literal.  All numbers
interpolated by the code under verification are integers (rounded heart
rate, or the literal defaults 120/80), where this agrees with JS; the
non-integer branch is rendered as `num/den` and is never exercised by the
claims. -/
def numStr (q : ℚ) : String :=
  if q.den = 1 then toString q.num else toString q.num ++ "/" ++ toString q.den

/-! ## Vitals data model -/

/-- Blood-pressure sub-record of an extraction response; each component
may be absent. -/
structure BPIn where
  systolic : Option ℚ
  diastolic : Option ℚ
deriving DecidableEq

/-- Raw extraction response (`rppgData` before normalization): heart rate
and blood pressure may arrive under snake_case or camelCase names, and
every field may be absent. -/
structure RawVitals where
  heart_rate : Option ℚ
  heartRate : Option ℚ
  hrv : Option ℚ
  blood_pressure : Option BPIn
  bloodPressure : Option BPIn
  stress_index : Option ℚ
deriving DecidableEq

/-- Vitals record as consumed by `processRecording` (snake_case fields,
each possibly absent). -/
structure Rppg where
  heart_rate : Option ℚ
  hrv : Option ℚ
  blood_pressure : Option BPIn
  stress_index : Option ℚ
deriving DecidableEq

/-- Modelled from the spec: the response normalization of
`localServices.analyzeVideo` (VitalsClient, spec section 4.3).  The file
`services/localServices.ts` is not part of the provided sources; per the
spec, the raw response may use either of two field-naming conventions for
heart rate and blood pressure (snake_case vs camelCase) and normalization
must accept both, yielding the snake_case record the scan component
reads. -/
def normalizeVitals (r : RawVitals) : Rppg where
  heart_rate := r.heart_rate.orElse fun _ => r.heartRate
  hrv := r.hrv
  blood_pressure := r.blood_pressure.orElse fun _ => r.bloodPressure
  stress_index := r.stress_index

/-- Blood pressure of an assembled `VitalScanResult` (rounded numbers). -/
structure BPOut where
  systolic : ℤ
  diastolic : ℤ
deriving DecidableEq

/-- The `VitalScanResult` record as assembled in `processRecording` (VitalScan.tsx
lines 111-121). -/
structure ScanRes where
  heartRate : ℤ
  hrv : ℤ
  bloodPressure : BPOut
  stressLevel : String
  timestamp : String
  aiInterpretation : String
deriving DecidableEq

/-- The `scanResult` construction of `processRecording`: rounded heart
rate, defaults `hrv→45`, `bp→120/80` via JS `||`, stress classified
against the 50 threshold.  `hrq` is the (defined) heart-rate value. -/
def mkScanResult (rppg : Rppg) (hrq : ℚ) (aiText ts : String) : ScanRes where
  heartRate := jsRound hrq
  hrv := jsRound (jsOr rppg.hrv 45)
  bloodPressure :=
    { systolic := jsRound (jsOr (rppg.blood_pressure.bind BPIn.systolic) 120)
      diastolic := jsRound (jsOr (rppg.blood_pressure.bind BPIn.diastolic) 80) }
  stressLevel := if jsOr rppg.stress_index 0 > 50 then "High" else "Normal"
  timestamp := ts
  aiInterpretation := aiText

/-! ## Interpretation with deadline and fallback -/

/-- The `[BPM: v]` metric tag of the fallback template. -/
def bpmToken (hr : ℤ) : String :=
  "[BPM: " ++ toString hr ++ "]"

/-- Status keyword of the fallback template: ELEVATED when the rounded
heart rate exceeds 100, STABLE otherwise. -/
def fallbackStatus (hr : ℤ) : String :=
  if hr > 100 then "ELEVATED" else "STABLE"

/-- The deterministic local fallback report of `processRecording`
(VitalScan.tsx line 108), built exactly as the template literal in the
source. -/
def fallbackReport (rppg : Rppg) (hrq : ℚ) : String :=
  "### REPORT_STATUS: " ++ fallbackStatus (jsRound hrq) ++
    "\n\n**Summary:** Signals processed via local engine fallback.\n\n**Clinical Findings:**\n* " ++
    bpmToken (jsRound hrq) ++ " - Normal rhythm detected.\n* [BP: " ++
    numStr (jsOr (rppg.blood_pressure.bind BPIn.systolic) 120) ++ "/" ++
    numStr (jsOr (rppg.blood_pressure.bind BPIn.diastolic) 80) ++
    "] - Estimated values.\n\n**AI Verdict:** Data captured and stored in local history."

/-- Outcome of racing the remote interpretation call against the 8000 ms
timer: the remote text if it settled first and resolved, otherwise the
timer rejection or the remote rejection. -/
inductive RaceOutcome where
  | remoteText (t : String)
  | timedOut
  | rejected (e : String)
deriving DecidableEq

/-- The race of `geminiService.interpretVitals` against `timeoutPromise`
(VitalScan.tsx lines 99-105) for a remote call that settles after
`settleMs` milliseconds with result `remote`: the remote outcome wins
exactly when it settles within the fixed 8000 ms deadline. -/
def raceInterpret (settleMs : ℕ) (remote : Except String String) : RaceOutcome :=
  if settleMs < 8000 then
    match remote with
    | .ok t => .remoteText t
    | .error e => .rejected e
  else .timedOut

/-- Value of `aiText` after the try/catch around the race (VitalScan.tsx lines
98-109): the remote text on success, the deterministic local fallback on
timeout or any rejection.  The rejection payload is discarded, never
surfaced. -/
def interpretVitalsResult (race : RaceOutcome) (rppg : Rppg) (hrq : ℚ) : String :=
  match race with
  | .remoteText t => t
  | .timedOut => fallbackReport rppg hrq
  | .rejected _ => fallbackReport rppg hrq

/-! ## The recording processor -/

/-- Outcome of `localServices.analyzeVideo`: a resolved response (possibly
null, possibly lacking fields) or a rejected network call. -/
inductive ExtractOutcome where
  | ok (response : Option RawVitals)
  | netFail (msg : String)
deriving DecidableEq

/-- Error-message translation of the catch block (VitalScan.tsx lines
133-135): fetch failures get the CORS hint, everything else is surfaced
verbatim. -/
def translateErr (m : String) : String :=
  if jsIncludes m "Failed to fetch" then
    "Network Error: Cannot connect to rPPG server on Port 8001. Check CORS or use Simulation Mode."
  else m

/-- Observable outcome of one `processRecording` run: whether the
extraction service was invoked, whether the interpretation stage was
reached, and the terminal session outcome (`error` = the Error state,
`ok` = the Result state). -/
structure ProcOutcome where
  extractionInvoked : Bool
  interpretationAttempted : Bool
  result : Except String ScanRes

/-- Stages of `processRecording` after a blob is available: extraction,
the pulse guard (line 93), interpretation, result assembly. -/
def runExtraction (ext : ExtractOutcome) (race : RaceOutcome) (ts : String) :
    ProcOutcome :=
  match ext with
  | .netFail m =>
    { extractionInvoked := true, interpretationAttempted := false
      result := .error (translateErr m) }
  | .ok none =>
    { extractionInvoked := true, interpretationAttempted := false
      result := .error
        (translateErr "The diagnostic engine could not extract a pulse from this video.") }
  | .ok (some raw) =>
    let rppg := normalizeVitals raw
    match rppg.heart_rate with
    | none =>
      { extractionInvoked := true, interpretationAttempted := false
        result := .error
          (translateErr "The diagnostic engine could not extract a pulse from this video.") }
    | some hrq =>
      let aiText := interpretVitalsResult race rppg hrq
      { extractionInvoked := true, interpretationAttempted := true
        result := .ok (mkScanResult rppg hrq aiText ts) }

/-- The `processRecording` handler (VitalScan.tsx lines 76-141) as a function of the
mode, the captured chunk sizes (the size of a blob is the sum of the sizes
of its chunks), and the outcomes of the two external calls.  In live mode a
zero-byte blob fails before `analyzeVideo` is called. -/
def processRecording (sim : Bool) (chunkSizes : List ℕ) (ext : ExtractOutcome)
    (race : RaceOutcome) (ts : String) : ProcOutcome :=
  if sim then runExtraction ext race ts
  else if chunkSizes.sum = 0 then
    { extractionInvoked := false, interpretationAttempted := false
      result := .error (translateErr "No video data captured. Please hold still.") }
  else runExtraction ext race ts

/-! ## The clinical-report parser -/

/-- Segment of a finding line: surrounding text, or a bracketed metric
tag. -/
inductive Seg where
  | plainText (t : String)
  | metricTag (kind value : String)
deriving DecidableEq

/-- Typed renderable block produced for one input line
(`renderClinicalReport`, VitalScan.tsx lines 204-250). -/
inductive ReportBlock where
  | statusBanner (status severityClass : String)
  | findingLine (segments : List Seg)
  | verdictBlock (text : String)
  | heading (text : String)
  | plainLine (text : String)
deriving DecidableEq

/-- Mapping of one split part of a finding line (VitalScan.tsx lines
224-229): a part starting with `[BPM:`/`[BP:`/`[HRV:` becomes a metric
tag whose value drops the opening marker and the first `]`; everything
else is plain text with `*` stripped. -/
def segOf (part : List Char) : Seg :=
  if isPrefixOfB "[BPM:".data part then
    .metricTag "HR" ⟨removeFirstL "]".data (removeFirstL "[BPM:".data part)⟩
  else if isPrefixOfB "[BP:".data part then
    .metricTag "BP" ⟨removeFirstL "]".data (removeFirstL "[BP:".data part)⟩
  else if isPrefixOfB "[HRV:".data part then
    .metricTag "HRV" ⟨removeFirstL "]".data (removeFirstL "[HRV:".data part)⟩
  else .plainText ⟨removeAllL "*".data part⟩

/-- Computation of the banner status text (VitalScan.tsx line 211): strip
every heading marker and status label, then trim. -/
def statusText (line : String) : String :=
  jsTrim ⟨stripMarks line.data⟩

/-- Severity of the banner (VitalScan.tsx line 212): the emerald styling
is abstracted as "positive", the rose styling as "negative". -/
def severityOf (status : String) : String :=
  if jsIncludes status "OPTIMAL" || jsIncludes status "STABLE" then "positive"
  else "negative"

/-- Classification of one line by the fixed if-chain of
`renderClinicalReport`: status banner, finding line, verdict, heading,
then plain text for any other non-blank line; a blank line yields no
block (`null`). -/
def classifyLine (line : String) : Option ReportBlock :=
  if jsStartsWith line "###" then
    some (.statusBanner (statusText line) (severityOf (statusText line)))
  else if jsIncludes line "[BPM:" || jsIncludes line "[BP:" || jsIncludes line "[HRV:" then
    some (.findingLine ((splitBrackets line.data).map segOf))
  else if jsStartsWith line "**AI Verdict:**" then
    some (.verdictBlock (jsTrim ⟨removeFirstL "**AI Verdict:**".data line.data⟩))
  else if jsStartsWith line "**" then
    some (.heading ⟨removeAllL "**".data line.data⟩)
  else if (trimChars line.data).isEmpty then none
  else some (.plainLine ⟨removeAllL "*".data line.data⟩)

/-- A line is non-blank when its trimmed text is non-empty (JS string
truthiness of `line.trim()`). -/
def nonBlank (line : String) : Bool :=
  !(trimChars line.data).isEmpty

/-- The block a non-blank line renders to. -/
def blockOf (line : String) : ReportBlock :=
  (classifyLine line).getD (.plainLine "")

/-- The whole report parser: split on newlines, one block per line that
classifies, in input order. -/
def parseReport (text : String) : List ReportBlock :=
  (text.splitOn "\n").filterMap classifyLine

/-! ## The session state machine -/

/-- Session state held by the scan component: recording flag, elapsed
seconds, processing flag, whether the 1-second interval timer is
installed, and the error/result/chunk state. -/
structure SessState where
  isRecording : Bool
  recordingTime : ℕ
  isProcessing : Bool
  timerActive : Bool
  error : Option String
  result : Option ScanRes
  chunks : List ℕ
deriving DecidableEq

/-- Entry guard of `processRecording` (line 77): a no-op while already
processing, otherwise the session becomes processing. -/
def procStart (s : SessState) : SessState :=
  if s.isProcessing then s else { s with isProcessing := true }

/-- The stopRecording handler (lines 143-157) as invoked through a
closure: the component is a React function component, so the handler the
interval callback holds is the `stopRecording` const of the render in
which it was created, and its guard at line 144 reads that render's
`isRecording` state constant — the value `captured` — not the current
state.  When the guard passes, the handler clears the recording flag,
cancels the timer, and hands the chunks to `processRecording`. -/
def stopRecWith (captured : Bool) (s : SessState) : SessState :=
  if !captured then s
  else procStart { s with isRecording := false, timerActive := false }

/-- The startRecording handler (lines 159-175): a no-op when already recording or
processing; otherwise reset the session and install the 1-second timer. -/
def startRec (s : SessState) : SessState :=
  if s.isRecording || s.isProcessing then s
  else
    { s with
      error := none, result := none, chunks := [], recordingTime := 0,
      isRecording := true, timerActive := true }

/-- One firing of the interval callback (lines 169-175) at elapsed time
`elapsed` seconds: record the elapsed time and, at the fixed 15-second
ceiling, invoke the captured `stopRecording` closure, whose guard reads
the stale `capturedIsRecording` value of the render that created the
callback.  A cancelled timer no longer fires. -/
def tick (capturedIsRecording : Bool) (s : SessState) (elapsed : ℕ) :
    SessState :=
  if !s.timerActive then s
  else
    let s1 := { s with recordingTime := elapsed }
    if 15 ≤ elapsed then stopRecWith capturedIsRecording s1 else s1

/-- Run the interval callback at elapsed times `1, 2, …, n` (the timer
fires once per second).  The callback is created inside `startRecording`,
which runs past its line-160 guard only from a render whose `isRecording`
state constant is `false` (the start button itself renders only while not
recording), so the `stopRecording` closure it captures carries
`isRecording = false`. -/
def runTicks (s : SessState) : ℕ → SessState
  | 0 => s
  | n + 1 => tick false (runTicks s n) (n + 1)

/-- The idle session, before any capture. -/
def idle0 : SessState where
  isRecording := false
  recordingTime := 0
  isProcessing := false
  timerActive := false
  error := none
  result := none
  chunks := []

/-! ## Helper lemmas about the string primitives -/

theorem isPrefixOfB_append (p t : List Char) : isPrefixOfB p (p ++ t) = true := by
  induction p with
  | nil => rfl
  | cons a as ih => simp [isPrefixOfB, ih]

theorem exists_of_isPrefixOfB {p l : List Char} (h : isPrefixOfB p l = true) :
    ∃ t, l = p ++ t := by
  induction p generalizing l with
  | nil => exact ⟨l, rfl⟩
  | cons a as ih =>
    cases l with
    | nil => simp [isPrefixOfB] at h
    | cons b bs =>
      simp only [isPrefixOfB, Bool.and_eq_true, beq_iff_eq] at h
      obtain ⟨t, ht⟩ := ih h.2
      exact ⟨t, by simp [h.1, ht]⟩

theorem containsSubL_factor (p a b : List Char) :
    containsSubL p (a ++ (p ++ b)) = true := by
  induction a with
  | nil =>
    cases hpb : p ++ b with
    | nil =>
      have hp : p = [] := by
        cases p with
        | nil => rfl
        | cons x xs => simp at hpb
      simp [containsSubL, hp, isPrefixOfB]
    | cons c rest =>
      simp only [List.nil_append, hpb, containsSubL]
      rw [← hpb, isPrefixOfB_append]
      simp
  | cons x xs ih =>
    simp only [List.cons_append, containsSubL, List.append_eq]
    rw [ih]
    simp

theorem mem_of_containsSubL {p l : List Char} {c : Char}
    (h : containsSubL p l = true) (hc : c ∈ p) : c ∈ l := by
  induction l with
  | nil =>
    have hp : p = [] := by
      cases p with
      | nil => rfl
      | cons x xs => simp [containsSubL, isPrefixOfB] at h
    simp [hp] at hc
  | cons x xs ih =>
    simp only [containsSubL, Bool.or_eq_true] at h
    rcases h with h | h
    · obtain ⟨t, ht⟩ := exists_of_isPrefixOfB h
      rw [ht]
      exact List.mem_append_left _ hc
    · exact List.mem_cons_of_mem _ (ih h)

theorem trimChars_nil_iff (l : List Char) :
    (trimChars l).isEmpty = true ↔ ∀ c ∈ l, jsWs c = true := by
  unfold trimChars
  rw [List.isEmpty_iff, List.reverse_eq_nil_iff, List.dropWhile_eq_nil_iff]
  constructor
  · intro h c hc
    have hsplit := List.takeWhile_append_dropWhile (p := jsWs) (l := l)
    rw [← hsplit] at hc
    rcases List.mem_append.mp hc with hc | hc
    · exact List.mem_takeWhile_imp hc
    · exact h c (List.mem_reverse.mpr hc)
  · intro h c hc
    exact h c ((List.dropWhile_sublist _).mem (List.mem_reverse.mp hc))

theorem trim_nonEmpty_of_mem {l : List Char} {c : Char} (hc : c ∈ l)
    (hw : jsWs c = false) : (trimChars l).isEmpty = false := by
  cases he : (trimChars l).isEmpty with
  | false => rfl
  | true =>
    have := (trimChars_nil_iff l).mp he c hc
    rw [hw] at this
    cases this

theorem strData (a b : String) : (a ++ b).data = a.data ++ b.data := by
  cases a; cases b; rfl

theorem jsIncludes_of_eq {s a p b : String}
    (h : s.data = a.data ++ p.data ++ b.data) : jsIncludes s p = true := by
  unfold jsIncludes
  rw [h, List.append_assoc]
  exact containsSubL_factor _ _ _

theorem jsStartsWith_of_eq {s p t : String} (h : s.data = p.data ++ t.data) :
    jsStartsWith s p = true := by
  unfold jsStartsWith
  rw [h]
  exact isPrefixOfB_append _ _

theorem nonBlank_of_jsStartsWith {l pre : String} {c : Char}
    (h : jsStartsWith l pre = true) (hc : c ∈ pre.data) (hw : jsWs c = false) :
    nonBlank l = true := by
  obtain ⟨t, ht⟩ := exists_of_isPrefixOfB h
  unfold nonBlank
  rw [trim_nonEmpty_of_mem (c := c) _ hw]
  · rfl
  · rw [ht]; exact List.mem_append_left _ hc

theorem nonBlank_of_jsIncludes {l pat : String} {c : Char}
    (h : jsIncludes l pat = true) (hc : c ∈ pat.data) (hw : jsWs c = false) :
    nonBlank l = true := by
  unfold nonBlank
  rw [trim_nonEmpty_of_mem (mem_of_containsSubL h hc) hw]
  rfl

/-! ## Classification lemmas -/

theorem classifyLine_eq_none_iff (l : String) :
    classifyLine l = none ↔ nonBlank l = false := by
  unfold classifyLine
  cases h1 : jsStartsWith l "###" with
  | true =>
    have hb := nonBlank_of_jsStartsWith (c := '#') h1 (by decide) (by decide)
    simp [h1, hb]
  | false =>
    cases h2 : (jsIncludes l "[BPM:" || jsIncludes l "[BP:" || jsIncludes l "[HRV:") with
    | true =>
      have hb : nonBlank l = true := by
        have h2' := h2
        simp only [Bool.or_eq_true] at h2'
        rcases h2' with (h | h) | h <;>
          exact nonBlank_of_jsIncludes (c := '[') h (by decide) (by decide)
      simp [h1, h2, hb]
    | false =>
      cases h3 : jsStartsWith l "**AI Verdict:**" with
      | true =>
        have hb := nonBlank_of_jsStartsWith (c := '*') h3 (by decide) (by decide)
        simp [h1, h2, h3, hb]
      | false =>
        cases h4 : jsStartsWith l "**" with
        | true =>
          have hb := nonBlank_of_jsStartsWith (c := '*') h4 (by decide) (by decide)
          simp [h1, h2, h3, h4, hb]
        | false =>
          cases h5 : (trimChars l.data).isEmpty with
          | true => simp [h1, h2, h3, h4, h5, nonBlank]
          | false => simp [h1, h2, h3, h4, h5, nonBlank]

theorem classifyLine_eq_some_blockOf (l : String) (h : nonBlank l = true) :
    classifyLine l = some (blockOf l) := by
  cases hc : classifyLine l with
  | none =>
    rw [(classifyLine_eq_none_iff l).mp hc] at h
    cases h
  | some b =>
    rw [blockOf, hc]
    rfl

theorem filterMap_classify (ls : List String) :
    ls.filterMap classifyLine = (ls.filter nonBlank).map blockOf := by
  induction ls with
  | nil => rfl
  | cons x xs ih =>
    cases hx : nonBlank x with
    | true =>
      rw [List.filterMap_cons_some (classifyLine_eq_some_blockOf x hx),
        List.filter_cons_of_pos (by simp [hx]), List.map_cons, ih]
    | false =>
      rw [List.filterMap_cons_none ((classifyLine_eq_none_iff x).mpr hx),
        List.filter_cons_of_neg (by simp [hx]), ih]

/-! ## Claim C4: one block per non-blank line, fixed first-match order -/

/-- Claim C4: the report parser produces exactly one block per non-blank
input line (blank lines produce no block), in input line order, and the
classification checks run in a fixed order with the first match winning:
in particular a status line is never also treated as a finding line even
if it contains a bracketed token. -/
theorem parser_one_block_per_line :
    (∀ t : String,
      parseReport t = ((t.splitOn "\n").filter nonBlank).map blockOf) ∧
    (∀ (l : String) (segs : List Seg), jsStartsWith l "###" = true →
      classifyLine l ≠ some (.findingLine segs)) := by
  constructor
  · intro t
    exact filterMap_classify _
  · intro l segs h
    unfold classifyLine
    simp [h]

theorem parser_one_block_per_line_witness :
    parseReport "a\n\n### REPORT_STATUS: STABLE" =
      ((("a\n\n### REPORT_STATUS: STABLE").splitOn "\n").filter nonBlank).map blockOf ∧
    jsStartsWith "### ATTENTION [BPM: 9]" "###" = true ∧
    classifyLine "### ATTENTION [BPM: 9]" ≠ some (.findingLine []) :=
  ⟨parser_one_block_per_line.1 _, by decide,
    parser_one_block_per_line.2 _ [] (by decide)⟩

/-! ## Claim C7: status banners and their severity -/

/-- Claim C7: a line beginning with the heading marker `###` parses to a
status banner whose severity is "positive" when the cleaned status text
contains `OPTIMAL` or `STABLE` and "negative" otherwise; in particular
`"### REPORT_STATUS: STABLE"` yields `StatusBanner{status:"STABLE",
severityClass:"positive"}`. -/
theorem status_banner_severity :
    (∀ l : String, jsStartsWith l "###" = true →
      classifyLine l = some (.statusBanner (statusText l)
        (if jsIncludes (statusText l) "OPTIMAL" || jsIncludes (statusText l) "STABLE"
          then "positive" else "negative"))) ∧
    classifyLine "### REPORT_STATUS: STABLE" =
      some (.statusBanner "STABLE" "positive") := by
  constructor
  · intro l h
    unfold classifyLine severityOf
    simp [h]
  · decide

theorem status_banner_severity_witness :
    jsStartsWith "### REPORT_STATUS: ELEVATED" "###" = true ∧
    classifyLine "### REPORT_STATUS: ELEVATED" =
      some (.statusBanner (statusText "### REPORT_STATUS: ELEVATED")
        (if jsIncludes (statusText "### REPORT_STATUS: ELEVATED") "OPTIMAL"
            || jsIncludes (statusText "### REPORT_STATUS: ELEVATED") "STABLE"
          then "positive" else "negative")) :=
  ⟨by decide, status_banner_severity.1 _ (by decide)⟩

/-! ## Claim C8: re-entrancy guard -/

/-- Claim C8: while a session is capturing or processing, invoking start
is a no-op that leaves the whole session state unchanged, and the
processing entry is likewise guarded, so a new session can begin only
after the prior one has reached a terminal state. -/
theorem start_reentrancy_guard :
    (∀ s : SessState, s.isRecording = true ∨ s.isProcessing = true →
      startRec s = s) ∧
    (∀ s : SessState, s.isProcessing = true → procStart s = s) := by
  constructor
  · intro s h
    rcases h with h | h <;> simp [startRec, h]
  · intro s h
    simp [procStart, h]

theorem start_reentrancy_guard_witness :
    startRec { idle0 with isRecording := true } = { idle0 with isRecording := true } ∧
    procStart { idle0 with isProcessing := true } = { idle0 with isProcessing := true } :=
  ⟨start_reentrancy_guard.1 _ (Or.inl rfl), start_reentrancy_guard.2 _ rfl⟩

/-! ## Claim C3: the 15-second recording ceiling (code bug) -/

/-- Claim C3 (code bug in the source): the spec requires the 1-second
tick to auto-stop the recording at the fixed 15-second ceiling and
transition to processing, but the interval callback
(VitalScan.tsx lines 169-175) invokes the stale `stopRecording` closure
of the render that created it, whose captured `isRecording` is `false`,
so the guard at line 144 returns immediately: after every number of
ticks — in particular after 16 — the session is still recording, the
timer is still installed, and processing is never entered.  The
recording therefore does continue past 15 seconds, against the claim. -/
theorem recording_ceiling_never_fires (n : ℕ) :
    runTicks (startRec idle0) n =
      { isRecording := true, recordingTime := n, isProcessing := false,
        timerActive := true, error := none, result := none, chunks := [] } := by
  induction n with
  | zero => rfl
  | succ k ih =>
    rw [runTicks, ih]
    simp [tick, stopRecWith]

/-! ## Claim C6: finding lines and metric tags -/

theorem removeFirstL_self_append (pat t : List Char) :
    removeFirstL pat (pat ++ t) = t := by
  cases pat with
  | nil =>
    cases t with
    | nil => rfl
    | cons c r => simp [removeFirstL, isPrefixOfB]
  | cons p ps =>
    have hpre : isPrefixOfB (p :: ps) (p :: (ps ++ t)) = true := by
      have h := isPrefixOfB_append (p :: ps) t
      rwa [List.cons_append] at h
    rw [List.cons_append, removeFirstL, if_pos hpre, ← List.cons_append]
    exact List.drop_left _ _

theorem removeFirstL_close {v : List Char} (hv : ']' ∉ v) :
    removeFirstL "]".data (v ++ [']']) = v := by
  have hd : "]".data = [']'] := rfl
  rw [hd]
  induction v with
  | nil => rfl
  | cons c cs ih =>
    have hc : c ≠ ']' := fun h => hv (h ▸ List.mem_cons_self c cs)
    have hcs : ']' ∉ cs := fun h => hv (List.mem_cons_of_mem c h)
    have hbc : (']' == c) = false := beq_eq_false_iff_ne.mpr fun h => hc h.symm
    have hpre : isPrefixOfB [']'] (c :: (cs ++ [']'])) = false := by
      simp [isPrefixOfB, hbc]
    rw [List.cons_append, removeFirstL,
      if_neg (by rw [hpre]; exact Bool.false_ne_true), ih hcs]

/-- The classification check for the line as stated in the claim does not
hold on the code: the segment value keeps the whitespace between the
colon and the number, so the example line carries `MetricTag "HR" " 72"`,
not `MetricTag "HR" "72"`. -/
theorem finding_value_counterexample :
    ¬ ∃ segs, classifyLine "* [BPM: 72] - Normal rhythm" =
        some (.findingLine segs) ∧ Seg.metricTag "HR" "72" ∈ segs := by
  rintro ⟨segs, h1, h2⟩
  have hc : classifyLine "* [BPM: 72] - Normal rhythm" =
      some (.findingLine [.plainText " ", .metricTag "HR" " 72",
        .plainText " - Normal rhythm"]) := by decide
  rw [hc] at h1
  injection h1 with h1
  injection h1 with h1
  rw [← h1] at h2
  exact absurd h2 (by decide)

/-- Claim C6 (amended: the tag value is the raw text between the colon and
the closing bracket, including its leading whitespace): the example line
parses to a finding line whose segments include `MetricTag "HR" " 72"`;
in general a part `[BPM:v]`/`[BP:v]`/`[HRV:v]` becomes a metric tag of
kind HR/BP/HRV with value `v`, and a line containing one of the bracketed
markers (and not classified as a status banner first) is split on bracket
boundaries with surrounding text becoming plain segments. -/
theorem finding_line_tags :
    classifyLine "* [BPM: 72] - Normal rhythm" =
      some (.findingLine [.plainText " ", .metricTag "HR" " 72",
        .plainText " - Normal rhythm"]) ∧
    (∀ v : List Char, ']' ∉ v →
      segOf ("[BPM:".data ++ v ++ [']']) = .metricTag "HR" ⟨v⟩ ∧
      segOf ("[BP:".data ++ v ++ [']']) = .metricTag "BP" ⟨v⟩ ∧
      segOf ("[HRV:".data ++ v ++ [']']) = .metricTag "HRV" ⟨v⟩) ∧
    (∀ l : String,
      (jsIncludes l "[BPM:" || jsIncludes l "[BP:" || jsIncludes l "[HRV:") = true →
      jsStartsWith l "###" = false →
      classifyLine l = some (.findingLine ((splitBrackets l.data).map segOf))) := by
  refine ⟨by decide, ?_, ?_⟩
  · intro v hv
    refine ⟨?_, ?_, ?_⟩
    · have h1 : segOf ("[BPM:".data ++ v ++ [']']) =
          .metricTag "HR" ⟨removeFirstL "]".data
            (removeFirstL "[BPM:".data ("[BPM:".data ++ (v ++ [']'])))⟩ := by
        rw [segOf, List.append_assoc]
        rw [if_pos (isPrefixOfB_append _ _)]
      rw [h1, removeFirstL_self_append, removeFirstL_close hv]
    · have h1 : segOf ("[BP:".data ++ v ++ [']']) =
          .metricTag "BP" ⟨removeFirstL "]".data
            (removeFirstL "[BP:".data ("[BP:".data ++ (v ++ [']'])))⟩ := by
        rw [segOf, List.append_assoc]
        have hno : isPrefixOfB "[BPM:".data ("[BP:".data ++ (v ++ [']'])) = false := rfl
        rw [if_neg (by rw [hno]; exact Bool.false_ne_true)]
        rw [if_pos (isPrefixOfB_append _ _)]
      rw [h1, removeFirstL_self_append, removeFirstL_close hv]
    · have h1 : segOf ("[HRV:".data ++ v ++ [']']) =
          .metricTag "HRV" ⟨removeFirstL "]".data
            (removeFirstL "[HRV:".data ("[HRV:".data ++ (v ++ [']'])))⟩ := by
        rw [segOf, List.append_assoc]
        have hno1 : isPrefixOfB "[BPM:".data ("[HRV:".data ++ (v ++ [']'])) = false := rfl
        have hno2 : isPrefixOfB "[BP:".data ("[HRV:".data ++ (v ++ [']'])) = false := rfl
        rw [if_neg (by rw [hno1]; exact Bool.false_ne_true)]
        rw [if_neg (by rw [hno2]; exact Bool.false_ne_true)]
        rw [if_pos (isPrefixOfB_append _ _)]
      rw [h1, removeFirstL_self_append, removeFirstL_close hv]
  · intro l hinc hstart
    unfold classifyLine
    simp [hstart, hinc]

theorem finding_line_tags_witness :
    (']' ∉ " 9".data) ∧
    segOf ("[BPM:".data ++ " 9".data ++ [']']) = .metricTag "HR" ⟨" 9".data⟩ ∧
    (jsIncludes "x [HRV: 5]" "[BPM:" || jsIncludes "x [HRV: 5]" "[BP:"
      || jsIncludes "x [HRV: 5]" "[HRV:") = true ∧
    classifyLine "x [HRV: 5]" =
      some (.findingLine ((splitBrackets "x [HRV: 5]".data).map segOf)) :=
  ⟨by decide, (finding_line_tags.2.1 _ (by decide)).1, by decide,
    finding_line_tags.2.2 _ (by decide) (by decide)⟩

/-! ## Claim C2: interpretation deadline and deterministic fallback -/

/-- The fallback report contains the exact `[BPM: <rounded hr>]` token. -/
theorem fallbackReport_has_bpm_token (rppg : Rppg) (hrq : ℚ) :
    jsIncludes (fallbackReport rppg hrq)
      ("[BPM: " ++ toString (jsRound hrq) ++ "]") = true := by
  apply jsIncludes_of_eq
    (a := "### REPORT_STATUS: " ++ fallbackStatus (jsRound hrq) ++
      "\n\n**Summary:** Signals processed via local engine fallback.\n\n**Clinical Findings:**\n* ")
    (b := " - Normal rhythm detected.\n* [BP: " ++
      numStr (jsOr (rppg.blood_pressure.bind BPIn.systolic) 120) ++ "/" ++
      numStr (jsOr (rppg.blood_pressure.bind BPIn.diastolic) 80) ++
      "] - Estimated values.\n\n**AI Verdict:** Data captured and stored in local history.")
  simp [fallbackReport, bpmToken, strData, List.append_assoc]

/-- The fallback report opens with the status line classified by the
100 bpm threshold. -/
theorem fallbackReport_status (rppg : Rppg) (hrq : ℚ) :
    jsStartsWith (fallbackReport rppg hrq)
      ("### REPORT_STATUS: " ++
        (if jsRound hrq > 100 then "ELEVATED" else "STABLE")) = true := by
  apply jsStartsWith_of_eq
    (t := "\n\n**Summary:** Signals processed via local engine fallback.\n\n**Clinical Findings:**\n* " ++
      bpmToken (jsRound hrq) ++ " - Normal rhythm detected.\n* [BP: " ++
      numStr (jsOr (rppg.blood_pressure.bind BPIn.systolic) 120) ++ "/" ++
      numStr (jsOr (rppg.blood_pressure.bind BPIn.diastolic) 80) ++
      "] - Estimated values.\n\n**AI Verdict:** Data captured and stored in local history.")
  simp [fallbackReport, fallbackStatus, strData, List.append_assoc]

/-- Claim C2: for a vitals record with a defined heart rate, the
interpretation step returns the remote text when the remote call settles
successfully within the 8000 ms deadline, and otherwise (timeout or any
rejection) returns the deterministic local fallback whose status is
ELEVATED exactly when the rounded heart rate exceeds 100 and which
contains the exact `[BPM: <rounded heart rate>]` token; the rejection
payload is never surfaced. -/
theorem interpretation_deadline_fallback (settleMs : ℕ)
    (remote : Except String String) (rppg : Rppg) (q : ℚ)
    (_hq : rppg.heart_rate = some q) :
    (∃ t, remote = .ok t ∧ settleMs < 8000 ∧
      interpretVitalsResult (raceInterpret settleMs remote) rppg q = t) ∨
    (interpretVitalsResult (raceInterpret settleMs remote) rppg q =
        fallbackReport rppg q ∧
      jsIncludes (fallbackReport rppg q)
        ("[BPM: " ++ toString (jsRound q) ++ "]") = true ∧
      jsStartsWith (fallbackReport rppg q)
        ("### REPORT_STATUS: " ++
          (if jsRound q > 100 then "ELEVATED" else "STABLE")) = true) := by
  by_cases hs : settleMs < 8000
  · cases remote with
    | ok t =>
      left
      exact ⟨t, rfl, hs, by simp [raceInterpret, hs, interpretVitalsResult]⟩
    | error e =>
      right
      refine ⟨by simp [raceInterpret, hs, interpretVitalsResult], ?_, ?_⟩
      · exact fallbackReport_has_bpm_token rppg q
      · exact fallbackReport_status rppg q
  · right
    refine ⟨by simp [raceInterpret, hs, interpretVitalsResult], ?_, ?_⟩
    · exact fallbackReport_has_bpm_token rppg q
    · exact fallbackReport_status rppg q

theorem interpretation_deadline_fallback_witness :
    (∃ t, (Except.ok "remote text" : Except String String) = .ok t ∧ 9000 < 8000 ∧
      interpretVitalsResult (raceInterpret 9000 (Except.ok "remote text"))
        ⟨some 72, none, none, none⟩ 72 = t) ∨
    (interpretVitalsResult (raceInterpret 9000 (Except.ok "remote text"))
        ⟨some 72, none, none, none⟩ 72 =
      fallbackReport ⟨some 72, none, none, none⟩ 72 ∧
      jsIncludes (fallbackReport ⟨some 72, none, none, none⟩ 72)
        ("[BPM: " ++ toString (jsRound 72) ++ "]") = true ∧
      jsStartsWith (fallbackReport ⟨some 72, none, none, none⟩ 72)
        ("### REPORT_STATUS: " ++
          (if jsRound 72 > 100 then "ELEVATED" else "STABLE")) = true) :=
  interpretation_deadline_fallback 9000 (Except.ok "remote text")
    ⟨some 72, none, none, none⟩ 72 rfl

/-! ## Claims C1 and C5: extraction guards -/

theorem translateErr_pulse :
    translateErr "The diagnostic engine could not extract a pulse from this video." =
      "The diagnostic engine could not extract a pulse from this video." := by
  decide

theorem translateErr_nodata :
    translateErr "No video data captured. Please hold still." =
      "No video data captured. Please hold still." := by
  decide

theorem runExtraction_pulse_missing (raw : RawVitals) (race : RaceOutcome)
    (ts : String) (h : (normalizeVitals raw).heart_rate = none) :
    runExtraction (.ok (some raw)) race ts =
      { extractionInvoked := true, interpretationAttempted := false,
        result := .error
          "The diagnostic engine could not extract a pulse from this video." } := by
  have e : runExtraction (.ok (some raw)) race ts =
      match (normalizeVitals raw).heart_rate with
      | none =>
        { extractionInvoked := true, interpretationAttempted := false,
          result := .error
            (translateErr "The diagnostic engine could not extract a pulse from this video.") }
      | some hrq =>
        { extractionInvoked := true, interpretationAttempted := true,
          result := .ok (mkScanResult (normalizeVitals raw) hrq
            (interpretVitalsResult race (normalizeVitals raw) hrq) ts) } := rfl
  rw [e, h, translateErr_pulse]

theorem runExtraction_pulse_present (raw : RawVitals) (race : RaceOutcome)
    (ts : String) (v : ℚ) (h : (normalizeVitals raw).heart_rate = some v) :
    runExtraction (.ok (some raw)) race ts =
      { extractionInvoked := true, interpretationAttempted := true,
        result := .ok (mkScanResult (normalizeVitals raw) v
          (interpretVitalsResult race (normalizeVitals raw) v) ts) } := by
  have e : runExtraction (.ok (some raw)) race ts =
      match (normalizeVitals raw).heart_rate with
      | none =>
        { extractionInvoked := true, interpretationAttempted := false,
          result := .error
            (translateErr "The diagnostic engine could not extract a pulse from this video.") }
      | some hrq =>
        { extractionInvoked := true, interpretationAttempted := true,
          result := .ok (mkScanResult (normalizeVitals raw) hrq
            (interpretVitalsResult race (normalizeVitals raw) hrq) ts) } := rfl
  rw [e, h]

theorem processRecording_to_runExtraction (sim : Bool) (chunks : List ℕ)
    (ext : ExtractOutcome) (race : RaceOutcome) (ts : String)
    (hgo : sim = true ∨ chunks.sum ≠ 0) :
    processRecording sim chunks ext race ts = runExtraction ext race ts := by
  rcases hgo with h | h
  · rw [h]
    rfl
  · cases sim with
    | true => rfl
    | false => simp [processRecording, h]

/-- Claim C1: normalization accepts both heart-rate field-naming
conventions: once a response object is obtained, the session proceeds to
interpretation whenever heart rate is present under either name
(`heart_rate` or `heartRate`), and fails with the no-pulse extraction
error — ending in the Error state, never the Result state — exactly when
heart rate is absent under both names. -/
theorem extraction_pulse_guard (sim : Bool) (chunks : List ℕ) (raw : RawVitals)
    (race : RaceOutcome) (ts : String) (hgo : sim = true ∨ chunks.sum ≠ 0) :
    ((raw.heart_rate = none ∧ raw.heartRate = none) →
      (processRecording sim chunks (.ok (some raw)) race ts).interpretationAttempted
          = false ∧
      (processRecording sim chunks (.ok (some raw)) race ts).result =
        .error "The diagnostic engine could not extract a pulse from this video.") ∧
    ((raw.heart_rate ≠ none ∨ raw.heartRate ≠ none) →
      (processRecording sim chunks (.ok (some raw)) race ts).interpretationAttempted
          = true ∧
      ∃ scan, (processRecording sim chunks (.ok (some raw)) race ts).result =
        .ok scan) := by
  rw [processRecording_to_runExtraction sim chunks _ race ts hgo]
  constructor
  · rintro ⟨h1, h2⟩
    have hn : (normalizeVitals raw).heart_rate = none := by
      simp [normalizeVitals, h1, h2, Option.orElse]
    rw [runExtraction_pulse_missing raw race ts hn]
    exact ⟨rfl, rfl⟩
  · intro h
    have hv : ∃ v, (normalizeVitals raw).heart_rate = some v := by
      cases hh : raw.heart_rate with
      | some v => exact ⟨v, by simp [normalizeVitals, hh, Option.orElse]⟩
      | none =>
        cases hh2 : raw.heartRate with
        | some v => exact ⟨v, by simp [normalizeVitals, hh, hh2, Option.orElse]⟩
        | none =>
          rcases h with h | h
          · exact absurd hh h
          · exact absurd hh2 h
    obtain ⟨v, hv⟩ := hv
    rw [runExtraction_pulse_present raw race ts v hv]
    exact ⟨rfl, _, rfl⟩

theorem extraction_pulse_guard_witness :
    ((true : Bool) = true ∨ List.sum ([] : List ℕ) ≠ 0) ∧
    ((RawVitals.mk none (some 72) none none none none).heart_rate ≠ none ∨
      (RawVitals.mk none (some 72) none none none none).heartRate ≠ none) ∧
    (processRecording true [] (.ok (some (RawVitals.mk none (some 72) none none none none)))
        .timedOut "ts").interpretationAttempted = true ∧
    ∃ scan,
      (processRecording true [] (.ok (some (RawVitals.mk none (some 72) none none none none)))
        .timedOut "ts").result = .ok scan :=
  ⟨Or.inl rfl, Or.inr (by decide),
    (extraction_pulse_guard true [] _ .timedOut "ts" (Or.inl rfl)).2
      (Or.inr (by decide))⟩

/-- Claim C5: in live (non-simulation) mode, a session whose assembled
clip is zero bytes fails with the explicit "no data captured" error
before the extraction call is made, ending in the Error state. -/
theorem empty_capture_guard (chunks : List ℕ) (ext : ExtractOutcome)
    (race : RaceOutcome) (ts : String) (h : chunks.sum = 0) :
    processRecording false chunks ext race ts =
      { extractionInvoked := false, interpretationAttempted := false,
        result := .error "No video data captured. Please hold still." } := by
  simp [processRecording, h, translateErr_nodata]

theorem empty_capture_guard_witness :
    List.sum ([] : List ℕ) = 0 ∧
    processRecording false [] (.ok none) .timedOut "ts" =
      { extractionInvoked := false, interpretationAttempted := false,
        result := .error "No video data captured. Please hold still." } :=
  ⟨rfl, empty_capture_guard [] (.ok none) .timedOut "ts" rfl⟩

/-! ## Claims C9 and C10: falsy defaults and the stress threshold -/

theorem jsOr_some_zero (d : ℚ) : jsOr (some 0) d = d := by
  simp [jsOr]

theorem jsOr_none (d : ℚ) : jsOr none d = d := rfl

/-- Claim C9: the assembled scan result substitutes the documented
defaults not only for absent `hrv`/blood-pressure/stress fields but also
when they are present with the falsy value 0: `hrv = 0` yields 45,
systolic/diastolic 0 yield 120/80 (in the scan result and in the fallback
report text), and `stress_index = 0` behaves as missing — a zero field is
indistinguishable from an omitted one at the public interface. -/
theorem zero_fields_use_defaults (rppg : Rppg) (bp : BPIn) (q : ℚ)
    (a ts : String) :
    (rppg.hrv = some 0 →
      mkScanResult rppg q a ts = mkScanResult { rppg with hrv := none } q a ts ∧
      (mkScanResult rppg q a ts).hrv = 45) ∧
    (rppg.blood_pressure = some bp → bp.systolic = some 0 → bp.diastolic = some 0 →
      mkScanResult rppg q a ts =
          mkScanResult { rppg with blood_pressure := none } q a ts ∧
      fallbackReport rppg q = fallbackReport { rppg with blood_pressure := none } q ∧
      (mkScanResult rppg q a ts).bloodPressure = ⟨120, 80⟩) ∧
    (rppg.stress_index = some 0 →
      mkScanResult rppg q a ts =
        mkScanResult { rppg with stress_index := none } q a ts) := by
  refine ⟨?_, ?_, ?_⟩
  · intro h
    constructor
    · simp [mkScanResult, h, jsOr]
    · have e : (mkScanResult rppg q a ts).hrv = jsRound (jsOr rppg.hrv 45) := rfl
      rw [e, h, jsOr_some_zero]
      decide
  · intro hbp h0s h0d
    refine ⟨?_, ?_, ?_⟩
    · simp [mkScanResult, hbp, h0s, h0d, jsOr]
    · simp [fallbackReport, hbp, h0s, h0d, jsOr]
    · have e : (mkScanResult rppg q a ts).bloodPressure =
          ⟨jsRound (jsOr (rppg.blood_pressure.bind BPIn.systolic) 120),
            jsRound (jsOr (rppg.blood_pressure.bind BPIn.diastolic) 80)⟩ := rfl
      have e2 : (some bp).bind BPIn.systolic = bp.systolic := rfl
      have e3 : (some bp).bind BPIn.diastolic = bp.diastolic := rfl
      rw [e, hbp, e2, e3, h0s, h0d, jsOr_some_zero, jsOr_some_zero]
      decide
  · intro h
    simp [mkScanResult, h, jsOr]

theorem zero_fields_use_defaults_witness :
    mkScanResult ⟨some 72, some 0, some ⟨some 0, some 0⟩, some 0⟩ 72 "a" "t" =
      mkScanResult { Rppg.mk (some 72) (some 0) (some ⟨some 0, some 0⟩) (some 0)
        with hrv := none } 72 "a" "t" ∧
    (mkScanResult ⟨some 72, some 0, some ⟨some 0, some 0⟩, some 0⟩ 72 "a" "t").hrv = 45 ∧
    mkScanResult ⟨some 72, some 0, some ⟨some 0, some 0⟩, some 0⟩ 72 "a" "t" =
      mkScanResult { Rppg.mk (some 72) (some 0) (some ⟨some 0, some 0⟩) (some 0)
        with blood_pressure := none } 72 "a" "t" ∧
    fallbackReport ⟨some 72, some 0, some ⟨some 0, some 0⟩, some 0⟩ 72 =
      fallbackReport { Rppg.mk (some 72) (some 0) (some ⟨some 0, some 0⟩) (some 0)
        with blood_pressure := none } 72 ∧
    (mkScanResult ⟨some 72, some 0, some ⟨some 0, some 0⟩, some 0⟩ 72 "a" "t").bloodPressure
        = ⟨120, 80⟩ ∧
    mkScanResult ⟨some 72, some 0, some ⟨some 0, some 0⟩, some 0⟩ 72 "a" "t" =
      mkScanResult { Rppg.mk (some 72) (some 0) (some ⟨some 0, some 0⟩) (some 0)
        with stress_index := none } 72 "a" "t" := by
  have h := zero_fields_use_defaults
    ⟨some 72, some 0, some ⟨some 0, some 0⟩, some 0⟩ ⟨some 0, some 0⟩ 72 "a" "t"
  have h1 := h.1 rfl
  have h2 := h.2.1 rfl rfl rfl
  have h3 := h.2.2 rfl
  exact ⟨h1.1, h1.2, h2.1, h2.2.1, h2.2.2, h3⟩

/-- Claim C10: the stress level of the scan result is "High" exactly when the
stress index — defaulted to 0 when absent or falsy — is strictly greater
than 50, and "Normal" otherwise; in particular a stress index of exactly
50, or a missing one, yields "Normal". -/
theorem stress_level_threshold (rppg : Rppg) (q : ℚ) (a ts : String) :
    ((mkScanResult rppg q a ts).stressLevel = "High" ↔
      jsOr rppg.stress_index 0 > 50) ∧
    (rppg.stress_index = some 50 →
      (mkScanResult rppg q a ts).stressLevel = "Normal") ∧
    (rppg.stress_index = none →
      (mkScanResult rppg q a ts).stressLevel = "Normal") := by
  refine ⟨?_, ?_, ?_⟩
  · by_cases h : jsOr rppg.stress_index 0 > 50
    · simp [mkScanResult, h]
    · simp [mkScanResult, h, (by decide : ("Normal" : String) ≠ "High")]
  · intro h
    norm_num [mkScanResult, h, jsOr]
  · intro h
    norm_num [mkScanResult, h, jsOr]

theorem stress_level_threshold_witness :
    (mkScanResult ⟨some 72, none, none, some 50⟩ 72 "a" "t").stressLevel = "Normal" ∧
    (mkScanResult ⟨some 72, none, none, none⟩ 72 "a" "t").stressLevel = "Normal" :=
  ⟨(stress_level_threshold ⟨some 72, none, none, some 50⟩ 72 "a" "t").2.1 rfl,
    (stress_level_threshold ⟨some 72, none, none, none⟩ 72 "a" "t").2.2 rfl⟩
